import Mathlib

/-!
Verification of the salmon production-planning engine (`core/optimizer.py`,
`dataio/loaders.py`) against its natural-language specification.

The Python code is shallowly embedded: dictionaries become association
lists, `pandas` tables become lists of rows, the Gurobi solver becomes an
oracle parameter supplying a status and variable values, and the
`try/except` boundary of `solve_plan` becomes an `Except`-valued body
wrapped by a total function.
-/

namespace Salmones

/-- Lookup in an association list, mirroring Python `d.get(k)` (first match). -/
def aget {α β : Type} [DecidableEq α] (l : List (α × β)) (a : α) : Option β :=
  (l.find? (fun kv => decide (kv.1 = a))).map (fun kv => kv.2)

/-- Lookup with default, mirroring Python `d.get(k, d0)`. -/
def agetD {α β : Type} [DecidableEq α] (l : List (α × β)) (a : α) (d : β) : β :=
  (aget l a).getD d

/-- Python `k in d`. -/
def amem {α β : Type} [DecidableEq α] (l : List (α × β)) (a : α) : Bool :=
  (aget l a).isSome

/-- Python `d[k] = v`: replace the binding if present, else append. -/
def aset {α β : Type} [DecidableEq α] (l : List (α × β)) (a : α) (b : β) :
    List (α × β) :=
  if (aget l a).isSome then
    l.map (fun kv => if kv.1 = a then (a, b) else kv)
  else l ++ [(a, b)]

/-- A decision-variable index `(p, j, e, k, c)`:
product, line, packing area, box format, size-class index. -/
structure Tup where
  p : String
  j : String
  e : String
  k : String
  c : Nat
deriving DecidableEq, Repr

/-- The planning parameters as they stand after the parsing/normalization
prologue of `solve_plan` (optimizer.py lines 33-125): sets `P, J, E, K`,
the size-class map `C_map`, and the numeric tables. `bcj?` is `none` when
none of the three accepted line-size compatibility encodings was given
(which makes `solve_plan` raise). -/
structure Params where
  P : List String
  J : List String
  E : List String
  K : List String
  C_map : List (Nat × String)
  ukc : List (String × List (Nat × Int))
  wc : List (Nat × ℚ)
  sp : List (String × ℚ)
  yp : List (String × ℚ)
  qp : List (String × ℚ)
  rpk : List (String × List (String × ℚ))
  mj : List (String × ℚ)
  ne : List (String × ℚ)
  bcj? : Option (List ((Nat × String) × Int))
  compat_emp : List (String × List String)
deriving Repr

/-- Insert into a sorted list of naturals. -/
def insSorted (a : Nat) : List Nat → List Nat
  | [] => [a]
  | b :: bs => if a ≤ b then a :: b :: bs else b :: insSorted a bs

/-- Insertion sort (ascending), modelling Python `sorted`. -/
def sortNat (l : List Nat) : List Nat := l.foldr insSorted []

/-- `C = list(sorted(int(i) for i in C_map.keys()))`. -/
def Cset (prm : Params) : List Nat :=
  sortNat (prm.C_map.map (fun kv => kv.1))

/-- `ukc[str(k)].get(c, 0)`, with a missing format treated as the empty row
(the `kstr not in ukc` guard of the VARS loop). -/
def ukcPieces (prm : Params) (k : String) (c : Nat) : Int :=
  agetD (agetD prm.ukc k []) c 0

/-- `bcj_map.get((c, j), 0)`. -/
def bcjVal (prm : Params) (c : Nat) (j : String) : Int :=
  agetD (prm.bcj?.getD []) (c, j) 0

/-- `fpe[(p,e)] = 1 if e in set(compat_empaque.get(p, [])) else 0`. -/
def fpeVal (prm : Params) (p e : String) : Int :=
  if e ∈ agetD prm.compat_emp p [] then 1 else 0

/-- `sp.get(p, 1.0)`. -/
def spGet (prm : Params) (p : String) : ℚ := agetD prm.sp p 1

/-- `yp.get(p, 1.0)`. -/
def ypGet (prm : Params) (p : String) : ℚ := agetD prm.yp p 1

/-- `qp.get(p, 1.0)`. -/
def qpGet (prm : Params) (p : String) : ℚ := agetD prm.qp p 1

/-- `rpk.get(p, {}).get(str(k), 0.0)`. -/
def rpkGet (prm : Params) (p k : String) : ℚ := agetD (agetD prm.rpk p []) k 0

/-- `wc.get(c, 0.0)`. -/
def wcGet (prm : Params) (c : Nat) : ℚ := agetD prm.wc c 0

/-- The admissible-tuple enumeration of `solve_plan` (optimizer.py lines
176-191): the Cartesian product of the sets filtered by product-area
compatibility, defined pieces-per-box, and size-line compatibility. -/
def VARS (prm : Params) : List Tup :=
  prm.P.flatMap (fun p =>
    prm.J.flatMap (fun j =>
      prm.E.flatMap (fun e =>
        if fpeVal prm p e ≠ 1 then []
        else prm.K.flatMap (fun k =>
          (Cset prm).filterMap (fun c =>
            if 0 < ukcPieces prm k c ∧ bcjVal prm c j = 1 then
              some ⟨p, j, e, k, c⟩
            else none)))))

theorem mem_VARS_iff (prm : Params) (p j e k : String) (c : Nat) :
    (Tup.mk p j e k c ∈ VARS prm) ↔
      p ∈ prm.P ∧ j ∈ prm.J ∧ e ∈ prm.E ∧ k ∈ prm.K ∧ c ∈ Cset prm ∧
      fpeVal prm p e = 1 ∧ 0 < ukcPieces prm k c ∧ bcjVal prm c j = 1 := by
  simp only [VARS, List.mem_flatMap, List.mem_filterMap]
  constructor
  · rintro ⟨p', hp', j', hj', e', he', h⟩
    by_cases hfe : fpeVal prm p' e' = 1
    · rw [if_neg (by simp [hfe])] at h
      obtain ⟨k', hk', hkc⟩ := List.mem_flatMap.mp h
      obtain ⟨c0, hc0, hsome⟩ := List.mem_filterMap.mp hkc
      by_cases hcond : 0 < ukcPieces prm k' c0 ∧ bcjVal prm c0 j' = 1
      · rw [if_pos hcond] at hsome
        have heq := Option.some.inj hsome
        have hp2 : p' = p := congrArg Tup.p heq
        have hj2 : j' = j := congrArg Tup.j heq
        have he2 : e' = e := congrArg Tup.e heq
        have hk2 : k' = k := congrArg Tup.k heq
        have hc2 : c0 = c := congrArg Tup.c heq
        subst hp2; subst hj2; subst he2; subst hk2; subst hc2
        exact ⟨hp', hj', he', hk', hc0, hfe, hcond.1, hcond.2⟩
      · rw [if_neg hcond] at hsome; cases hsome
    · rw [if_pos (by simp [hfe])] at h
      cases h
  · rintro ⟨hp, hj, he, hk, hc, hfe, huk, hbc⟩
    refine ⟨p, hp, j, hj, e, he, ?_⟩
    rw [if_neg (by simp [hfe])]
    refine List.mem_flatMap.mpr ⟨k, hk, List.mem_filterMap.mpr ⟨c, hc, ?_⟩⟩
    rw [if_pos ⟨huk, hbc⟩]

/-- Every instantiated variable has strictly positive pieces-per-box. -/
theorem vars_ukc_pos (prm : Params) (t : Tup) (ht : t ∈ VARS prm) :
    0 < ukcPieces prm t.k t.c := by
  obtain ⟨p, j, e, k, c⟩ := t
  exact ((mem_VARS_iff prm p j e k c).mp ht).2.2.2.2.2.2.1

/-- Tags identifying the constraint families posted by `solve_plan`. -/
inductive CTag where
  | r1 (c : Nat)
  | r3 (j : String)
  | r5 (e : String)
  | r6 (p k : String) (c : Nat)
  | r7
  | rextra (t : Tup)
deriving DecidableEq, Repr

inductive CRel where
  | le
  | eq
deriving DecidableEq, Repr

/-- One posted linear constraint: `sum of coeff * x[t]` related to `rhs`. -/
structure Constr where
  tag : CTag
  coeffs : List (Tup × ℚ)
  rhs : ℚ
  rel : CRel
deriving DecidableEq, Repr

/-- The numeric floor `1e-9` guarding the divisions of R1 and R7. -/
def eps : ℚ := 1 / 1000000000

/-- The pound-to-kilogram divisor `2.20462` of R7. -/
def lbPerKg : ℚ := 220462 / 100000

/-- R1 coefficient of tuple `t` (optimizer.py line 208):
`ukc[str(k)].get(c, 0) / max(1e-9, sp.get(p, 1.0) * yp.get(p, 1.0))`. -/
def r1Coeff (prm : Params) (t : Tup) : ℚ :=
  (ukcPieces prm t.k t.c : ℚ) / max eps (spGet prm t.p * ypGet prm t.p)

/-- R1 (availability in raw salmon units) for size class `c`; posted for every
`c in C` (lines 205-211), with `ac.get(c, 0)` as right-hand side. -/
def r1Constr (prm : Params) (ac : List (Nat × Int)) (c : Nat) : Constr :=
  { tag := .r1 c
    coeffs := ((VARS prm).filter (fun t => decide (t.c = c))).map
        (fun t => (t, r1Coeff prm t))
    rhs := ((agetD ac c 0 : Int) : ℚ)
    rel := .le }

/-- R3 (line capacity, pieces/shift) for line `j`; posted for every `j in J`
(lines 215-222). -/
def r3Constr (prm : Params) (j : String) : Constr :=
  { tag := .r3 j
    coeffs := ((VARS prm).filter (fun t => decide (t.j = j))).map
        (fun t => (t, (ukcPieces prm t.k t.c : ℚ)))
    rhs := agetD prm.mj j 0
    rel := .le }

/-- R5 (packing-area capacity, pieces/shift) for area `e`; posted for every
`e in E` (lines 225-232). -/
def r5Constr (prm : Params) (e : String) : Constr :=
  { tag := .r5 e
    coeffs := ((VARS prm).filter (fun t => decide (t.e = e))).map
        (fun t => (t, (ukcPieces prm t.k t.c : ℚ)))
    rhs := agetD prm.ne e 0
    rel := .le }

/-- R6 (demand per (p, k, c), lines 235-250): posted only for triples with at
least one admissible tuple (`has_var`), with `dpkc.get((p, k, c), 0.0)` as
right-hand side. -/
def r6Constrs (prm : Params) (dpkc : List ((String × String × Nat) × ℚ)) :
    List Constr :=
  prm.P.flatMap (fun p =>
    prm.K.flatMap (fun k =>
      (Cset prm).filterMap (fun c =>
        if (VARS prm).any (fun t => decide (t.p = p ∧ t.k = k ∧ t.c = c)) then
          some
            { tag := .r6 p k c
              coeffs := ((VARS prm).filter
                  (fun t => decide (t.p = p ∧ t.k = k ∧ t.c = c))).map
                  (fun t => (t, (1 : ℚ)))
              rhs := agetD dpkc (p, k, c) 0
              rel := .le }
        else none)))

/-- R7 coefficient of tuple `t` (lines 259-263): the quicksum is divided by
`2.20462` outside, so per tuple the coefficient is
`(ukc / max(1e-9, sp.get(p, 1.0))) * wc.get(c, 0.0) * yp.get(p, 1.0) / 2.20462`. -/
def r7Coeff (prm : Params) (t : Tup) : ℚ :=
  (ukcPieces prm t.k t.c : ℚ) / max eps (spGet prm t.p)
    * wcGet prm t.c * ypGet prm t.p / lbPerKg

/-- The single mass-ceiling constraint over the tuples routed to
`"Congelado"`. -/
def r7C (prm : Params) : Constr :=
  { tag := .r7
    coeffs := ((VARS prm).filter (fun t => decide (t.e = "Congelado"))).map
        (fun t => (t, r7Coeff prm t))
    rhs := 22500
    rel := .le }

/-- R7 (mass ceiling on `"Congelado"`, lines 252-265): posted only when
`"Congelado" in E` and at least one admissible tuple is routed there. -/
def r7Constrs (prm : Params) : List Constr :=
  if "Congelado" ∈ prm.E ∧ (VARS prm).any (fun t => decide (t.e = "Congelado"))
  then [r7C prm]
  else []

/-- The `HON`-only-on-`Emparrillado` exclusion (lines 269-271): `x = 0` for
every admissible tuple of product `"HON"` on another line. -/
def rextraConstrs (prm : Params) : List Constr :=
  ((VARS prm).filter (fun t => decide (t.p = "HON" ∧ t.j ≠ "Emparrillado"))).map
    (fun t => { tag := .rextra t, coeffs := [(t, (1 : ℚ))], rhs := 0, rel := .eq })

/-- `mj[str(j)]` and `ne[str(e)]` are direct indexings that raise `KeyError`
when a line or area has no capacity entry; the raise is modelled as this check
failing. -/
def capKeysOk (prm : Params) : Bool :=
  prm.J.all (fun j => amem prm.mj j) && prm.E.all (fun e => amem prm.ne e)

/-- Python truthiness of the parsed `dpkc` (`if dpkc:`): present and non-empty. -/
def dpkcTruthy (dpkc : Option (List ((String × String × Nat) × ℚ))) : Bool :=
  match dpkc with
  | some l => !l.isEmpty
  | none => false

/-- All constraints posted by `solve_plan`, in posting order. -/
def modelConstrs (prm : Params) (ac : List (Nat × Int))
    (dpkc : Option (List ((String × String × Nat) × ℚ))) : List Constr :=
  ((Cset prm).map (r1Constr prm ac))
    ++ (prm.J.map (r3Constr prm))
    ++ (prm.E.map (r5Constr prm))
    ++ (if dpkcTruthy dpkc then r6Constrs prm (dpkc.getD []) else [])
    ++ r7Constrs prm
    ++ rextraConstrs prm

/-- Objective coefficient `qp.get(p, 1.0) * rpk.get(p, {}).get(str(k), 0.0)`
(lines 196-202). -/
def objCoeff (prm : Params) (t : Tup) : ℚ := qpGet prm t.p * rpkGet prm t.p t.k

/-- The maximized objective value at a point. -/
def objective (prm : Params) (x : Tup → ℚ) : ℚ :=
  ((VARS prm).map (fun t => objCoeff prm t * x t)).sum

/-- Total box count of a point. -/
def totalBoxes (prm : Params) (x : Tup → ℚ) : ℚ :=
  ((VARS prm).map (fun t => x t)).sum

/-- Value of a linear form at a point. -/
def evalLin (coeffs : List (Tup × ℚ)) (x : Tup → ℚ) : ℚ :=
  (coeffs.map (fun tc => tc.2 * x tc.1)).sum

def satisfies (cstr : Constr) (x : Tup → ℚ) : Prop :=
  match cstr.rel with
  | .le => evalLin cstr.coeffs x ≤ cstr.rhs
  | .eq => evalLin cstr.coeffs x = cstr.rhs

/-- A feasible integer point of the model: decision variables are nonnegative
integers (`vtype=GRB.INTEGER, lb=0`) and every posted constraint holds. -/
def Feasible (cs : List Constr) (x : Tup → ℕ) : Prop :=
  ∀ cstr ∈ cs, satisfies cstr (fun t => (x t : ℚ))

theorem r1Constr_mem_model (prm : Params) (ac : List (Nat × Int))
    (dpkc : Option (List ((String × String × Nat) × ℚ)))
    (c : Nat) (hc : c ∈ Cset prm) :
    r1Constr prm ac c ∈ modelConstrs prm ac dpkc := by
  unfold modelConstrs
  refine List.mem_append_left _ (List.mem_append_left _ ?_)
  refine List.mem_append_left _ (List.mem_append_left _ ?_)
  exact List.mem_append_left _ (List.mem_map_of_mem _ hc)

theorem list_sum_all_zero_of_nonneg {l : List ℚ}
    (h0 : ∀ a ∈ l, 0 ≤ a) (hs : l.sum ≤ 0) : ∀ a ∈ l, a = 0 := by
  induction l with
  | nil => intro a ha; cases ha
  | cons b bs ih =>
    have hb : 0 ≤ b := h0 b (List.mem_cons_self b bs)
    have hbs : 0 ≤ bs.sum :=
      List.sum_nonneg (fun a ha => h0 a (List.mem_cons_of_mem b ha))
    rw [List.sum_cons] at hs
    intro a ha
    rcases List.mem_cons.mp ha with rfl | ha'
    · linarith
    · exact ih (fun a' ha' => h0 a' (List.mem_cons_of_mem b ha')) (by linarith) a ha'

instance instDecSatisfies (cstr : Constr) (x : Tup → ℚ) :
    Decidable (satisfies cstr x) :=
  match h : cstr.rel with
  | .le => decidable_of_iff (evalLin cstr.coeffs x ≤ cstr.rhs) (by simp [satisfies, h])
  | .eq => decidable_of_iff (evalLin cstr.coeffs x = cstr.rhs) (by simp [satisfies, h])

theorem evalLin_map (l : List Tup) (coeff : Tup → ℚ) (x : Tup → ℚ) :
    evalLin (l.map (fun t => (t, coeff t))) x
      = (l.map (fun t => coeff t * x t)).sum := by
  unfold evalLin
  rw [List.map_map]
  rfl

theorem r1Coeff_pos (prm : Params) (t : Tup) (ht : t ∈ VARS prm) :
    0 < r1Coeff prm t := by
  unfold r1Coeff
  apply div_pos
  · exact_mod_cast vars_ukc_pos prm t ht
  · have heps : (0 : ℚ) < eps := by norm_num [eps]
    exact lt_of_lt_of_le heps (le_max_left _ _)

/-- C4: for every size class `c` with availability 0, every feasible solution
of the model built by `solve_plan` assigns box count 0 to every decision
variable whose size index is `c`; this uses that every instantiated variable
has `piecesPerBox > 0` and that the guarded R1 divisor is strictly positive. -/
theorem C4_zero_availability_forces_zero_boxes (prm : Params)
    (ac : List (Nat × Int)) (dpkc : Option (List ((String × String × Nat) × ℚ)))
    (x : Tup → ℕ) (hfeas : Feasible (modelConstrs prm ac dpkc) x)
    (c : Nat) (hc : c ∈ Cset prm) (hac : agetD ac c 0 = 0)
    (t : Tup) (ht : t ∈ VARS prm) (htc : t.c = c) : x t = 0 := by
  have hsat := hfeas _ (r1Constr_mem_model prm ac dpkc c hc)
  simp only [satisfies, r1Constr] at hsat
  rw [evalLin_map] at hsat
  rw [hac] at hsat
  have hsum :
      ((((VARS prm).filter (fun t => decide (t.c = c))).map
        (fun t => r1Coeff prm t * ((x t : ℚ)))).sum) ≤ 0 := by
    exact le_trans hsat (by norm_num)
  have hzero := list_sum_all_zero_of_nonneg (l :=
      ((VARS prm).filter (fun t => decide (t.c = c))).map
        (fun t => r1Coeff prm t * ((x t : ℚ)))) ?_ hsum
  · have htl : t ∈ (VARS prm).filter (fun t => decide (t.c = c)) :=
      List.mem_filter.mpr ⟨ht, by simp [htc]⟩
    have hterm := hzero _ (List.mem_map_of_mem _ htl)
    have hcoeff := r1Coeff_pos prm t ht
    have hxq : ((x t : ℚ)) = 0 := by
      rcases mul_eq_zero.mp hterm with h | h
      · exact absurd h (ne_of_gt hcoeff)
      · exact h
    exact_mod_cast hxq
  · intro a ha
    obtain ⟨t', ht', rfl⟩ := List.mem_map.mp ha
    have ht'v : t' ∈ VARS prm := (List.mem_filter.mp ht').1
    exact mul_nonneg (le_of_lt (r1Coeff_pos prm t' ht'v)) (Nat.cast_nonneg _)

instance instDecFeasible (cs : List Constr) (x : Tup → ℕ) :
    Decidable (Feasible cs x) :=
  inferInstanceAs (Decidable (∀ cstr ∈ cs, satisfies cstr (fun t => (x t : ℚ))))

/-- The default size-class map (optimizer.py lines 51-55 / loaders.py 9-13). -/
def cmapDefault : List (Nat × String) :=
  [(0, "1-2"), (1, "2-3"), (2, "3-4"), (3, "4-5"), (4, "5-6"),
   (5, "6-7"), (6, "7-8"), (7, "8-9"), (8, "9-10"), (9, "10-11"),
   (10, "11-12"), (11, "12-13"), (12, "13-14"), (13, "14+")]

/-- Scenario A of the spec: two lines (capacities 1000 and 800 pieces), one
packing area (capacity 2000), one product (weight 1, yield 1, 2 pieces per raw
unit), one box format with 5 pieces per box for size "7-8" (index 6),
price 10 per box. -/
def prmA : Params :=
  { P := ["P1"]
    J := ["L1", "L2"]
    E := ["E1"]
    K := ["F1"]
    C_map := cmapDefault
    ukc := [("F1", [(6, 5)])]
    wc := []
    sp := [("P1", 2)]
    yp := [("P1", 1)]
    qp := [("P1", 1)]
    rpk := [("P1", [("F1", 10)])]
    mj := [("L1", 1000), ("L2", 800)]
    ne := [("E1", 2000)]
    bcj? := some [((6, "L1"), 1), ((6, "L2"), 1)]
    compat_emp := [("P1", ["E1"])] }

/-- Scenario A availability: 500 raw units for size "7-8" (index 6). -/
def acA : List (Nat × Int) := [(6, 500)]

def tA1 : Tup := ⟨"P1", "L1", "E1", "F1", 6⟩

def tA2 : Tup := ⟨"P1", "L2", "E1", "F1", 6⟩

/-- The Scenario A optimal point: 200 boxes on line L1. -/
def xA : Tup → ℕ := fun t => if t = tA1 then 200 else 0

theorem varsA : VARS prmA = [tA1, tA2] := by decide

theorem csetA : Cset prmA = [0, 1, 2, 3, 4, 5, 6, 7, 8, 9, 10, 11, 12, 13] := by
  decide

theorem r1A_coeffs :
    (r1Constr prmA acA 6).coeffs
      = [(tA1, r1Coeff prmA tA1), (tA2, r1Coeff prmA tA2)] := rfl

theorem r1CoeffA1 : r1Coeff prmA tA1 = 5 / 2 := by
  norm_num [r1Coeff, ukcPieces, spGet, ypGet, agetD, aget, prmA, tA1, eps]

theorem r1CoeffA2 : r1Coeff prmA tA2 = 5 / 2 := by
  norm_num [r1Coeff, ukcPieces, spGet, ypGet, agetD, aget, prmA, tA2, eps]

theorem r1A_rhs : (r1Constr prmA acA 6).rhs = 500 := by
  norm_num [r1Constr, agetD, aget, acA]

theorem r1A_mem : r1Constr prmA acA 6 ∈ modelConstrs prmA acA none :=
  r1Constr_mem_model prmA acA none 6 (by decide)

theorem objCoeffA1 : objCoeff prmA tA1 = 10 := by
  norm_num [objCoeff, qpGet, rpkGet, agetD, aget, prmA, tA1]

theorem objCoeffA2 : objCoeff prmA tA2 = 10 := by
  norm_num [objCoeff, qpGet, rpkGet, agetD, aget, prmA, tA2]

/-- The Scenario A model, written out constraint by constraint. -/
def csA : List Constr :=
  [r1Constr prmA acA 0, r1Constr prmA acA 1, r1Constr prmA acA 2,
   r1Constr prmA acA 3, r1Constr prmA acA 4, r1Constr prmA acA 5,
   r1Constr prmA acA 6, r1Constr prmA acA 7, r1Constr prmA acA 8,
   r1Constr prmA acA 9, r1Constr prmA acA 10, r1Constr prmA acA 11,
   r1Constr prmA acA 12, r1Constr prmA acA 13,
   r3Constr prmA "L1", r3Constr prmA "L2", r5Constr prmA "E1"]

theorem modelA : modelConstrs prmA acA none = csA := rfl

theorem xA_feasible : Feasible (modelConstrs prmA acA none) xA := by
  rw [modelA]
  intro cstr hmem
  fin_cases hmem <;>
  · simp only [satisfies, r1Constr, r3Constr, r5Constr, varsA]
    simp [evalLin, List.filter_cons, List.filter_nil, r1Coeff, ukcPieces,
      spGet, ypGet, agetD, aget, acA, prmA, eps, xA, tA1, tA2]
    all_goals norm_num

theorem objectiveA (x : Tup → ℚ) :
    objective prmA x = 10 * x tA1 + 10 * x tA2 := by
  unfold objective
  rw [varsA]
  simp only [List.map_cons, List.map_nil, List.sum_cons, List.sum_nil,
    objCoeffA1, objCoeffA2]
  ring

theorem totalBoxesA (x : Tup → ℚ) : totalBoxes prmA x = x tA1 + x tA2 := by
  unfold totalBoxes
  rw [varsA]
  simp only [List.map_cons, List.map_nil, List.sum_cons, List.sum_nil]
  ring

/-- C1: for the Scenario A instance, the optimum of the integer program built
by `solve_plan` has total box count 200 and objective value 2000: such a
feasible point exists, no feasible point does better, and every feasible point
with objective 2000 has exactly 200 boxes. -/
theorem C1_scenarioA_optimum :
    (∃ x : Tup → ℕ, Feasible (modelConstrs prmA acA none) x ∧
        objective prmA (fun t => (x t : ℚ)) = 2000 ∧
        totalBoxes prmA (fun t => (x t : ℚ)) = 200) ∧
    (∀ x : Tup → ℕ, Feasible (modelConstrs prmA acA none) x →
        objective prmA (fun t => (x t : ℚ)) ≤ 2000 ∧
        totalBoxes prmA (fun t => (x t : ℚ)) ≤ 200 ∧
        (objective prmA (fun t => (x t : ℚ)) = 2000 →
          totalBoxes prmA (fun t => (x t : ℚ)) = 200)) := by
  constructor
  · refine ⟨xA, xA_feasible, ?_, ?_⟩
    · rw [objectiveA]
      norm_num [xA, tA1, tA2]
      all_goals decide
    · rw [totalBoxesA]
      norm_num [xA, tA1, tA2]
      all_goals decide
  · intro x hfeas
    have hle : evalLin (r1Constr prmA acA 6).coeffs (fun t => (x t : ℚ))
        ≤ (r1Constr prmA acA 6).rhs := hfeas _ r1A_mem
    rw [r1A_coeffs, r1A_rhs] at hle
    simp only [evalLin, List.map_cons, List.map_nil, List.sum_cons,
      List.sum_nil, r1CoeffA1, r1CoeffA2] at hle
    rw [objectiveA, totalBoxesA]
    refine ⟨by linarith, by linarith, fun hobj => by linarith⟩

theorem C1_scenarioA_optimum_witness :
    objective prmA (fun t => ((xA t : ℚ))) ≤ 2000 :=
  (C1_scenarioA_optimum.2 xA xA_feasible).1

/-- C2: for every product, line, area, box format and size class drawn from the
respective sets, a decision variable is instantiated by `solve_plan` if and
only if `piecesPerBox > 0`, the line-size compatibility holds and the
product-area compatibility holds; a tuple failing any condition never enters
`VARS` at all. -/
theorem C2_variable_instantiated_iff (prm : Params) (p j e k : String) (c : Nat)
    (hp : p ∈ prm.P) (hj : j ∈ prm.J) (he : e ∈ prm.E) (hk : k ∈ prm.K)
    (hc : c ∈ Cset prm) :
    (Tup.mk p j e k c ∈ VARS prm) ↔
      (0 < ukcPieces prm k c ∧ bcjVal prm c j = 1 ∧ fpeVal prm p e = 1) := by
  rw [mem_VARS_iff]
  constructor
  · rintro ⟨-, -, -, -, -, hf, hu, hb⟩
    exact ⟨hu, hb, hf⟩
  · rintro ⟨hu, hb, hf⟩
    exact ⟨hp, hj, he, hk, hc, hf, hu, hb⟩

theorem C2_variable_instantiated_iff_witness :
    (Tup.mk "P1" "L1" "E1" "F1" 6 ∈ VARS prmA) ↔
      (0 < ukcPieces prmA "F1" 6 ∧ bcjVal prmA 6 "L1" = 1 ∧
        fpeVal prmA "P1" "E1" = 1) :=
  C2_variable_instantiated_iff prmA "P1" "L1" "E1" "F1" 6
    (by decide) (by decide) (by decide) (by decide) (by decide)

/-- Scenario A availability with zero raw units for size "7-8". -/
def acA0 : List (Nat × Int) := [(6, 0)]

theorem modelA0 :
    modelConstrs prmA acA0 none
      = [r1Constr prmA acA0 0, r1Constr prmA acA0 1, r1Constr prmA acA0 2,
         r1Constr prmA acA0 3, r1Constr prmA acA0 4, r1Constr prmA acA0 5,
         r1Constr prmA acA0 6, r1Constr prmA acA0 7, r1Constr prmA acA0 8,
         r1Constr prmA acA0 9, r1Constr prmA acA0 10, r1Constr prmA acA0 11,
         r1Constr prmA acA0 12, r1Constr prmA acA0 13,
         r3Constr prmA "L1", r3Constr prmA "L2", r5Constr prmA "E1"] := rfl

theorem xZero_feasible_acA0 :
    Feasible (modelConstrs prmA acA0 none) (fun _ => 0) := by
  rw [modelA0]
  intro cstr hmem
  fin_cases hmem <;>
  · simp only [satisfies, r1Constr, r3Constr, r5Constr, varsA]
    simp [evalLin, List.filter_cons, List.filter_nil, r1Coeff, ukcPieces,
      spGet, ypGet, agetD, aget, acA0, prmA, eps, tA1, tA2]

theorem C4_zero_availability_forces_zero_boxes_witness :
    (fun _ => 0 : Tup → ℕ) tA1 = 0 :=
  C4_zero_availability_forces_zero_boxes prmA acA0 none (fun _ => 0)
    xZero_feasible_acA0 6 (by decide) (by decide) tA1 (by decide) rfl

/-- Gurobi termination statuses relevant to the check of line 276. -/
inductive GStatus where
  | optimal
  | timeLimit
  | infeasible
  | unbounded
  | other
deriving DecidableEq, Repr

/-- `m.Status in [GRB.OPTIMAL, GRB.TIME_LIMIT]`. -/
def GStatus.usable : GStatus → Bool
  | .optimal => true
  | .timeLimit => true
  | _ => false

/-- The numeric Gurobi status code, as interpolated into the notes. -/
def GStatus.code : GStatus → Nat
  | .optimal => 2
  | .infeasible => 3
  | .unbounded => 5
  | .timeLimit => 9
  | .other => 1

/-- One row of the result plan. -/
structure PlanRow where
  linea : String
  empaque : String
  producto : String
  formato_caja : String
  calibre : String
  cajas : ℚ
  piezas : ℚ
deriving DecidableEq, Repr

/-- A pandas DataFrame abstracted to its column list and its rows. -/
structure PlanTable where
  cols : List String
  rows : List PlanRow
deriving DecidableEq, Repr

/-- The seven plan columns fixed on both construction sites
(optimizer.py lines 296 and 313). -/
def planColumns : List String :=
  ["linea", "empaque", "producto", "formato_caja", "calibre", "cajas", "piezas"]

/-- The dict returned by `solve_plan`. -/
structure SolveResult where
  plan_df : PlanTable
  notes : List String
deriving DecidableEq, Repr

/-- A diagnostic artifact written under `logs/` by the except handler. -/
structure LogEntry where
  path : String
  text : String
deriving DecidableEq, Repr

/-- The `inputs_df` availability table: raw column names plus rows of
(calibre label, numeric count). -/
structure InTable where
  cols : List String
  rows : List (String × Int)
deriving DecidableEq, Repr

/-- Python `str.strip()`: drop leading and trailing whitespace (structural
model over the character list). -/
def pyStrip (s : String) : String :=
  ⟨(((s.data.dropWhile Char.isWhitespace).reverse.dropWhile
      Char.isWhitespace).reverse)⟩

/-- Python `str.lower()` (ASCII lowering, as used on the column names). -/
def pyLower (s : String) : String := ⟨s.data.map Char.toLower⟩

/-- `c.strip().lower()` applied to a column name. -/
def pyNorm (s : String) : String := pyLower (pyStrip s)

/-- Distinct labels in first-appearance order (`groupby` keys). -/
def distinctLabels (rows : List (String × Int)) : List String :=
  (rows.map (fun r => r.1)).eraseDups

/-- Per-label sum of counts, modelling `groupby("calibre").sum()`. -/
def sumByLabel (rows : List (String × Int)) (lab : String) : Int :=
  ((rows.filter (fun r => decide (r.1 = lab))).map (fun r => r.2)).sum

/-- `C_inv_local = {str(v): int(k) for k, v in C_map.items()}`: on duplicate
labels the later entry overwrites, hence the reversed search. -/
def cinvLookup (cmap : List (Nat × String)) (lab : String) : Option Nat :=
  (cmap.reverse.find? (fun kv => decide (kv.2 = lab))).map (fun kv => kv.1)

/-- The warning appended when the table brings `piezas` instead of `salmones`
(line 149; text abbreviated to ASCII). -/
def piezasWarnNote : String :=
  "Advertencia: inputs_df trae piezas pero ac es en salmones; se ignora el override."

/-- The `ac` override from `inputs_df` (lines 134-149): with `calibre` and
`salmones` columns, labels are trimmed, counts summed per label and written
into `ac` for every label present in `C_map`; a `calibre`/`piezas` table only
adds a warning note; an empty or absent table changes nothing. Returns the
final `ac` and the notes appended. No value check of any kind is performed. -/
def acOverride (cmap : List (Nat × String)) (ac0 : List (Nat × Int))
    (tbl? : Option InTable) : List (Nat × Int) × List String :=
  match tbl? with
  | none => (ac0, [])
  | some tbl =>
    if tbl.rows.isEmpty then (ac0, [])
    else
      let cols := tbl.cols.map pyNorm
      if "calibre" ∈ cols ∧ "salmones" ∈ cols then
        let rows := tbl.rows.map (fun r => (pyStrip r.1, r.2))
        let upd := (distinctLabels rows).foldl
          (fun ac lab =>
            match cinvLookup cmap lab with
            | some idx => aset ac idx (sumByLabel rows lab)
            | none => ac) ac0
        (upd, [])
      else if "calibre" ∈ cols ∧ "piezas" ∈ cols then
        (ac0, [piezasWarnNote])
      else (ac0, [])

/-- Note emitted when R7 is posted (line 266; ASCII rendering). -/
def r7Note : String :=
  "R7 aplicada: limite Congelado 22,500 kg con conversion (ukc/sp)*wc*yp/2.20462."

/-- Notes appended during model construction: only the R7 note, exactly when
R7 was posted. -/
def buildNotes (prm : Params) : List String :=
  if "Congelado" ∈ prm.E ∧ (VARS prm).any (fun t => decide (t.e = "Congelado"))
  then [r7Note] else []

/-- The fail-fast `ValueError` raises of the parameter prologue (lines 33-121,
in source order: empty P/J/E/K, then missing mj/ne, then missing line-size
compatibility). These happen before any note is appended. The presence of the
`ukc`/`rpk`/`wc`/`sp`/`yp`/`qp` dicts is guaranteed by the typed embedding. -/
def paramError (prm : Params) : Option String :=
  if prm.P.isEmpty then some "Parametro productos vacio en YAML."
  else if prm.J.isEmpty then some "Parametro lineas vacio en YAML."
  else if prm.E.isEmpty then some "Parametro areas_empaque vacio en YAML."
  else if prm.K.isEmpty then some "Parametro formatos_caja vacio en YAML."
  else if prm.mj.isEmpty then some "Falta mj en YAML."
  else if prm.ne.isEmpty then some "Falta ne en YAML."
  else if prm.bcj?.isNone then some "Falta compatibilidad de lineas."
  else none

/-- Result-row labels: `C_map.get(int(c), str(c))` (line 291). -/
def labelOf (prm : Params) (c : Nat) : String :=
  agetD prm.C_map c (toString c)

/-- Row extraction (lines 281-294): tuples whose solver value exceeds the
1e-9 noise floor, with `piezas = ukc * val`. -/
def extractRows (prm : Params) (xval : Tup → ℚ) : List PlanRow :=
  ((VARS prm).filter (fun t => decide (eps < xval t))).map (fun t =>
    { linea := t.j, empaque := t.e, producto := t.p, formato_caja := t.k
      calibre := labelOf prm t.c
      cajas := xval t
      piezas := (ukcPieces prm t.k t.c : ℚ) * xval t })

/-- Note on the all-variables-zero path (line 298; ASCII rendering). -/
def emptyPlanNote : String :=
  "Sin resultados validos (todas las variables en cero)."

/-- Success note carrying the objective value (line 301; ASCII rendering). -/
def doneNote (v : ℚ) : String :=
  "Optimizacion finalizada. Valor objetivo = " ++ toString v

/-- Failure note of the except handler (line 311; ASCII rendering), naming the
timestamped log file. -/
def failNote (ts : String) : String :=
  "Ocurrio un error durante la optimizacion. Se guardo log en error_gurobi_"
    ++ ts ++ ".txt."

/-- The artifact written by the except handler (lines 305-310): a file under
`logs/` named with the timestamp, whose text carries the timestamp and the
exception. -/
def logEntryFor (ts msg : String) : LogEntry :=
  { path := "logs/error_gurobi_" ++ ts ++ ".txt"
    text := "[ERROR] " ++ ts ++ "\n" ++ msg }

/-- The body of `solve_plan` inside the `try` (lines 28-302), with the
external solver abstracted to an oracle status `st` and value map `xval`.
`.error (msg, notes)` models a raise carrying the notes accumulated so far. -/
def solvePlanBody (prm : Params) (inputs? : Option InTable)
    (acYaml : List (Nat × Int)) (st : GStatus) (xval : Tup → ℚ) :
    Except (String × List String) SolveResult :=
  match paramError prm with
  | some msg => .error (msg, [])
  | none =>
    let notes1 := (acOverride prm.C_map acYaml inputs?).2
    if capKeysOk prm = false then
      .error ("KeyError: capacidad de linea o area faltante", notes1)
    else
      let notes2 := notes1 ++ buildNotes prm
      if st.usable = false then
        .error ("Gurobi termino con estado " ++ toString st.code,
                notes2 ++ ["Modelo no convergio (status "
                            ++ toString st.code ++ ")."])
      else
        let rows := extractRows prm xval
        if rows.isEmpty then
          .ok { plan_df := { cols := planColumns, rows := rows }
                notes := notes2 ++ [emptyPlanNote] }
        else
          .ok { plan_df := { cols := planColumns, rows := rows }
                notes := notes2 ++ [doneNote (objective prm xval)] }

/-- `solve_plan` as a total function: the except wrapper (lines 304-315)
catches every raise, writes one timestamped log artifact and returns an empty
plan (with the full column schema) plus a failure note. The returned pair is
(result, artifacts written). -/
def solvePlan (prm : Params) (inputs? : Option InTable)
    (acYaml : List (Nat × Int)) (st : GStatus) (xval : Tup → ℚ)
    (ts : String) : SolveResult × List LogEntry :=
  match solvePlanBody prm inputs? acYaml st xval with
  | .ok r => (r, [])
  | .error (msg, notes) =>
      ({ plan_df := { cols := planColumns, rows := [] }
         notes := notes ++ [failNote ts] },
       [logEntryFor ts msg])

/-- C3: whenever the exact solve ends with a status other than optimal or
time-limit, `solve_plan` returns normally (never raises past its boundary)
with an empty plan table and a failure note, and writes exactly one
timestamped diagnostic artifact. -/
theorem C3_bad_status_degrades (prm : Params) (inputs? : Option InTable)
    (acYaml : List (Nat × Int)) (st : GStatus) (xval : Tup → ℚ) (ts : String)
    (hok : paramError prm = none) (hkeys : capKeysOk prm = true)
    (hst : st.usable = false) :
    solvePlan prm inputs? acYaml st xval ts
      = ({ plan_df := { cols := planColumns, rows := [] }
           notes := (acOverride prm.C_map acYaml inputs?).2 ++ buildNotes prm
             ++ ["Modelo no convergio (status " ++ toString st.code ++ ")."]
             ++ [failNote ts] }
         , [logEntryFor ts ("Gurobi termino con estado " ++ toString st.code)]) := by
  unfold solvePlan solvePlanBody
  rw [hok]
  simp only [hkeys, hst, Bool.false_eq_true, if_false, if_neg, ite_false]
  simp [List.append_assoc]

/-- C10: on every return path of `solve_plan` — successful extraction, the
all-variables-zero case, and the exception/failure path — the returned plan
table has exactly the seven columns linea, empaque, producto, formato_caja,
calibre, cajas, piezas in that order (and a notes list, by the result type). -/
theorem C10_schema_stable (prm : Params) (inputs? : Option InTable)
    (acYaml : List (Nat × Int)) (st : GStatus) (xval : Tup → ℚ) (ts : String) :
    (solvePlan prm inputs? acYaml st xval ts).1.plan_df.cols = planColumns := by
  unfold solvePlan solvePlanBody
  rcases paramError prm with - | msg
  · by_cases hkeys : capKeysOk prm = false
    · simp [hkeys]
    · by_cases hst : GStatus.usable st = false
      · simp [hkeys, hst]
      · by_cases hrows : (extractRows prm xval).isEmpty
        · simp [hkeys, hst, hrows]
        · simp [hkeys, hst, hrows]
  · simp

theorem C3_bad_status_degrades_witness :
    (solvePlan prmA none acA GStatus.infeasible (fun _ => 0) "20251012_000000").2
      = [logEntryFor "20251012_000000" "Gurobi termino con estado 3"] := by
  rw [C3_bad_status_degrades prmA none acA GStatus.infeasible (fun _ => 0)
    "20251012_000000" (by decide) (by decide) rfl]
  rfl

/-- `load_inputs` (loaders.py lines 139-158): checks only that the lowered
column names contain `calibre` and one of `salmones`/`piezas`; row values are
never inspected. `none` models an empty path argument (returns an empty
table). -/
def load_inputs (tbl? : Option InTable) : Except String InTable :=
  match tbl? with
  | none => .ok { cols := [], rows := [] }
  | some tbl =>
    let cols := tbl.cols.map pyNorm
    if "calibre" ∉ cols then
      .error "Falta columna calibre en el archivo de disponibilidad."
    else if "salmones" ∉ cols ∧ "piezas" ∉ cols then
      .error "Falta columna salmones o piezas en el archivo de disponibilidad."
    else .ok { cols := cols, rows := tbl.rows }

/-- An availability table carrying a negative raw-unit count. -/
def tblNeg : InTable := { cols := ["calibre", "salmones"], rows := [("7-8", -5)] }

/-- C6 counterexample: an availability input with a negative raw-unit count
(-5 salmon for size "7-8") is accepted by `load_inputs` and its negative value
is carried verbatim into `ac[6]` by the `solve_plan` override; no
input-validation error is raised anywhere on this path. -/
theorem C6_counterexample_negative_accepted :
    load_inputs (some tblNeg)
        = Except.ok { cols := ["calibre", "salmones"], rows := [("7-8", -5)] }
      ∧ agetD (acOverride cmapDefault [] (some tblNeg)).1 6 0 = -5 := by
  exact ⟨rfl, by decide⟩

/-- C6 amended: negative counts are not rejected. `load_inputs` accepts any
table whose lowered columns contain `calibre` and `salmones` or `piezas`,
regardless of the row values (negative included), and returns it for the
`solve_plan` override to sum into `ac`. -/
theorem C6_amended_no_negative_check (cols : List String)
    (rows : List (String × Int))
    (hcal : "calibre" ∈ cols.map pyNorm)
    (hnum : "salmones" ∈ cols.map pyNorm ∨ "piezas" ∈ cols.map pyNorm) :
    load_inputs (some { cols := cols, rows := rows })
      = Except.ok { cols := cols.map pyNorm, rows := rows } := by
  simp only [load_inputs]
  rw [if_neg (by simpa using hcal)]
  rw [if_neg]
  push_neg
  intro hs
  rcases hnum with h | h
  · exact absurd h hs
  · exact h

theorem C6_amended_no_negative_check_witness :
    load_inputs (some tblNeg)
      = Except.ok { cols := ["calibre", "salmones"].map pyNorm
                    rows := [("7-8", -5)] } :=
  C6_amended_no_negative_check ["calibre", "salmones"] [("7-8", -5)]
    (by decide) (Or.inl (by decide))

/-- Case analysis on the membership of a constraint in the assembled model. -/
theorem mem_model_cases (prm : Params) (ac : List (Nat × Int))
    (dpkc : Option (List ((String × String × Nat) × ℚ))) (cstr : Constr)
    (h : cstr ∈ modelConstrs prm ac dpkc) :
    (∃ c ∈ Cset prm, cstr = r1Constr prm ac c) ∨
    (∃ j ∈ prm.J, cstr = r3Constr prm j) ∨
    (∃ e ∈ prm.E, cstr = r5Constr prm e) ∨
    (dpkcTruthy dpkc = true ∧ cstr ∈ r6Constrs prm (dpkc.getD [])) ∨
    cstr ∈ r7Constrs prm ∨
    cstr ∈ rextraConstrs prm := by
  unfold modelConstrs at h
  simp only [List.mem_append] at h
  rcases h with ((((h | h) | h) | h) | h) | h
  · obtain ⟨c, hc, heq⟩ := List.mem_map.mp h
    exact Or.inl ⟨c, hc, heq.symm⟩
  · obtain ⟨j, hj, heq⟩ := List.mem_map.mp h
    exact Or.inr (Or.inl ⟨j, hj, heq.symm⟩)
  · obtain ⟨e, he, heq⟩ := List.mem_map.mp h
    exact Or.inr (Or.inr (Or.inl ⟨e, he, heq.symm⟩))
  · by_cases hd : dpkcTruthy dpkc = true
    · rw [if_pos hd] at h
      exact Or.inr (Or.inr (Or.inr (Or.inl ⟨hd, h⟩)))
    · rw [if_neg hd] at h
      cases h
  · exact Or.inr (Or.inr (Or.inr (Or.inr (Or.inl h))))
  · exact Or.inr (Or.inr (Or.inr (Or.inr (Or.inr h))))

/-- Every member of the R6 family carries an `r6` tag whose indices have at
least one admissible tuple (`has_var`). -/
theorem mem_r6Constrs_tag (prm : Params)
    (dpkc : List ((String × String × Nat) × ℚ)) (cstr : Constr)
    (h : cstr ∈ r6Constrs prm dpkc) :
    ∃ p k c, cstr.tag = CTag.r6 p k c ∧
      (VARS prm).any (fun t => decide (t.p = p ∧ t.k = k ∧ t.c = c)) = true := by
  unfold r6Constrs at h
  obtain ⟨p, hp, h⟩ := List.mem_flatMap.mp h
  obtain ⟨k, hk, h⟩ := List.mem_flatMap.mp h
  obtain ⟨c, hc, hsome⟩ := List.mem_filterMap.mp h
  by_cases hv : (VARS prm).any (fun t => decide (t.p = p ∧ t.k = k ∧ t.c = c))
      = true
  · rw [if_pos hv] at hsome
    refine ⟨p, k, c, ?_, hv⟩
    rw [← Option.some.inj hsome]
  · rw [if_neg hv] at hsome
    cases hsome

/-- A constraint of the assembled model tagged `r7` comes from the R7 family. -/
theorem mem_model_r7 (prm : Params) (ac : List (Nat × Int))
    (dpkc : Option (List ((String × String × Nat) × ℚ))) (cstr : Constr)
    (h : cstr ∈ modelConstrs prm ac dpkc) (htag : cstr.tag = CTag.r7) :
    cstr ∈ r7Constrs prm := by
  rcases mem_model_cases prm ac dpkc cstr h with
    ⟨c, -, rfl⟩ | ⟨j, -, rfl⟩ | ⟨e, -, rfl⟩ | ⟨-, h6⟩ | h7 | hx
  · simp [r1Constr] at htag
  · simp [r3Constr] at htag
  · simp [r5Constr] at htag
  · obtain ⟨p, k, c, htag', -⟩ := mem_r6Constrs_tag prm _ cstr h6
    rw [htag] at htag'
    cases htag'
  · exact h7
  · obtain ⟨t, -, heq⟩ := List.mem_map.mp hx
    rw [← heq] at htag
    cases htag

/-- Membership in the R7 family: it is the singleton `[r7C prm]` exactly when
`"Congelado"` is an area with at least one admissible tuple. -/
theorem mem_r7Constrs_iff (prm : Params) (cstr : Constr) :
    cstr ∈ r7Constrs prm ↔
      (("Congelado" ∈ prm.E ∧
          (VARS prm).any (fun t => decide (t.e = "Congelado")) = true) ∧
        cstr = r7C prm) := by
  unfold r7Constrs
  by_cases hcond : "Congelado" ∈ prm.E ∧
      (VARS prm).any (fun t => decide (t.e = "Congelado")) = true
  · rw [if_pos (by exact_mod_cast hcond)]
    simp [hcond]
  · rw [if_neg (by exact_mod_cast hcond)]
    simp only [List.not_mem_nil, false_iff]
    rintro ⟨⟨hE, hA⟩, -⟩
    exact hcond ⟨hE, hA⟩

theorem list_sum_map_div (l : List Tup) (g : Tup → ℚ) (d : ℚ) :
    (l.map (fun t => g t / d)).sum = (l.map g).sum / d := by
  induction l with
  | nil => simp
  | cons a as ih => simp [ih, add_div]

/-- The R7 left-hand side exactly as the spec words it:
`Σ (piecesPerBox × x / piecesPerUnit(product)) × avgUnitWeight(size) ×
yield(product)`, divided by 2.20462. -/
def specR7lhs (prm : Params) (x : Tup → ℚ) : ℚ :=
  (((VARS prm).filter (fun t => decide (t.e = "Congelado"))).map (fun t =>
      (ukcPieces prm t.k t.c : ℚ) * x t / spGet prm t.p
        * wcGet prm t.c * ypGet prm t.p)).sum / lbPerKg

theorem evalLin_r7C (prm : Params)
    (hsp : ∀ t ∈ VARS prm, eps ≤ spGet prm t.p) (x : Tup → ℚ) :
    evalLin (r7C prm).coeffs x = specR7lhs prm x := by
  unfold r7C specR7lhs
  rw [evalLin_map, ← list_sum_map_div]
  apply congrArg List.sum
  apply List.map_congr_left
  intro t ht
  have htv : t ∈ VARS prm := (List.mem_filter.mp ht).1
  unfold r7Coeff
  rw [max_eq_right (hsp t htv)]
  ring

/-- C5: the mass-ceiling constraint is posted exactly for the designated
mass-limited area `"Congelado"` and only when that area has at least one
admissible tuple; every posted instance is an inequality with right-hand side
22500 whose left side is exactly the spec form, the sum over those tuples of
(piecesPerBox × x / piecesPerUnit) × avgUnitWeight × yield, divided by
2.20462 — provided no piecesPerUnit lies below the 1e-9 floor. -/
theorem C5_mass_ceiling_exact_form (prm : Params) (ac : List (Nat × Int))
    (dpkc : Option (List ((String × String × Nat) × ℚ)))
    (hsp : ∀ t ∈ VARS prm, eps ≤ spGet prm t.p) :
    ((∃ cstr ∈ modelConstrs prm ac dpkc, cstr.tag = CTag.r7) ↔
      ("Congelado" ∈ prm.E ∧ ∃ t ∈ VARS prm, t.e = "Congelado")) ∧
    (∀ cstr ∈ modelConstrs prm ac dpkc, cstr.tag = CTag.r7 →
      cstr.rel = CRel.le ∧ cstr.rhs = 22500 ∧
      ∀ x : Tup → ℚ, evalLin cstr.coeffs x = specR7lhs prm x) := by
  have hany : ((VARS prm).any (fun t => decide (t.e = "Congelado")) = true)
      ↔ ∃ t ∈ VARS prm, t.e = "Congelado" := by
    rw [List.any_eq_true]
    constructor
    · rintro ⟨t, ht, hd⟩
      exact ⟨t, ht, of_decide_eq_true hd⟩
    · rintro ⟨t, ht, hd⟩
      exact ⟨t, ht, decide_eq_true hd⟩
  constructor
  · constructor
    · rintro ⟨cstr, hmem, htag⟩
      have h7 := mem_model_r7 prm ac dpkc cstr hmem htag
      obtain ⟨⟨hE, hA⟩, -⟩ := (mem_r7Constrs_iff prm cstr).mp h7
      exact ⟨hE, hany.mp hA⟩
    · rintro ⟨hE, ht⟩
      refine ⟨r7C prm, ?_, rfl⟩
      have h7 : r7C prm ∈ r7Constrs prm :=
        (mem_r7Constrs_iff prm (r7C prm)).mpr ⟨⟨hE, hany.mpr ht⟩, rfl⟩
      unfold modelConstrs
      exact List.mem_append_left _ (List.mem_append_right _ h7)
  · intro cstr hmem htag
    have h7 := mem_model_r7 prm ac dpkc cstr hmem htag
    obtain ⟨-, rfl⟩ := (mem_r7Constrs_iff prm cstr).mp h7
    exact ⟨rfl, rfl, evalLin_r7C prm hsp⟩

/-- Scenario A rerouted through the mass-limited area `"Congelado"`. -/
def prmC : Params :=
  { P := ["P1"]
    J := ["L1", "L2"]
    E := ["Congelado"]
    K := ["F1"]
    C_map := cmapDefault
    ukc := [("F1", [(6, 5)])]
    wc := [(6, 8)]
    sp := [("P1", 2)]
    yp := [("P1", 1)]
    qp := [("P1", 1)]
    rpk := [("P1", [("F1", 10)])]
    mj := [("L1", 1000), ("L2", 800)]
    ne := [("Congelado", 2000)]
    bcj? := some [((6, "L1"), 1), ((6, "L2"), 1)]
    compat_emp := [("P1", ["Congelado"])] }

def tC1 : Tup := ⟨"P1", "L1", "Congelado", "F1", 6⟩

def tC2 : Tup := ⟨"P1", "L2", "Congelado", "F1", 6⟩

theorem varsC : VARS prmC = [tC1, tC2] := by decide

theorem C5_mass_ceiling_exact_form_witness :
    ∃ cstr ∈ modelConstrs prmC acA none, cstr.tag = CTag.r7 :=
  (C5_mass_ceiling_exact_form prmC acA none (by
    intro t ht
    rw [varsC] at ht
    fin_cases ht <;> norm_num [spGet, agetD, aget, prmC, tC1, tC2, eps])).1.mpr
    ⟨by decide, tC1, by decide, rfl⟩

theorem r3Constr_mem_model (prm : Params) (ac : List (Nat × Int))
    (dpkc : Option (List ((String × String × Nat) × ℚ)))
    (j : String) (hj : j ∈ prm.J) :
    r3Constr prm j ∈ modelConstrs prm ac dpkc := by
  unfold modelConstrs
  refine List.mem_append_left _ (List.mem_append_left _ ?_)
  refine List.mem_append_left _ (List.mem_append_left _ ?_)
  exact List.mem_append_right _ (List.mem_map_of_mem _ hj)

theorem r5Constr_mem_model (prm : Params) (ac : List (Nat × Int))
    (dpkc : Option (List ((String × String × Nat) × ℚ)))
    (e : String) (he : e ∈ prm.E) :
    r5Constr prm e ∈ modelConstrs prm ac dpkc := by
  unfold modelConstrs
  refine List.mem_append_left _ (List.mem_append_left _ ?_)
  refine List.mem_append_left _ ?_
  exact List.mem_append_right _ (List.mem_map_of_mem _ he)

/-- C8 counterexample: in Scenario A, size class 0 has zero admissible
tuples, yet `solve_plan` still posts the availability constraint R1 for size
0 — with an empty sum — so the constraint is not omitted from the model. -/
theorem C8_counterexample_r1_not_omitted :
    ((VARS prmA).filter (fun t => decide (t.c = 0))).isEmpty = true ∧
    ∃ cstr ∈ modelConstrs prmA acA none,
      cstr.tag = CTag.r1 0 ∧ cstr.coeffs = [] :=
  ⟨by decide, r1Constr prmA acA 0,
    r1Constr_mem_model prmA acA none 0 (by decide), rfl, rfl⟩

/-- C8 amended: only the demand (R6) and mass-ceiling (R7) families are
omitted when their dimension has zero admissible tuples; the availability
(R1), line-capacity (R3) and area-capacity (R5) constraints are posted for
every size class, line and area of the sets regardless, as trivial
constraints with an empty sum — and in no case is this an error. -/
theorem C8_amended_only_r6_r7_omitted (prm : Params) (ac : List (Nat × Int))
    (dpkc : Option (List ((String × String × Nat) × ℚ))) :
    (∀ c ∈ Cset prm, r1Constr prm ac c ∈ modelConstrs prm ac dpkc) ∧
    (∀ j ∈ prm.J, r3Constr prm j ∈ modelConstrs prm ac dpkc) ∧
    (∀ e ∈ prm.E, r5Constr prm e ∈ modelConstrs prm ac dpkc) ∧
    (∀ p k c, (∃ cstr ∈ modelConstrs prm ac dpkc, cstr.tag = CTag.r6 p k c) →
      ∃ t ∈ VARS prm, t.p = p ∧ t.k = k ∧ t.c = c) ∧
    ((∃ cstr ∈ modelConstrs prm ac dpkc, cstr.tag = CTag.r7) →
      ("Congelado" ∈ prm.E ∧ ∃ t ∈ VARS prm, t.e = "Congelado")) := by
  refine ⟨fun c hc => r1Constr_mem_model prm ac dpkc c hc,
    fun j hj => r3Constr_mem_model prm ac dpkc j hj,
    fun e he => r5Constr_mem_model prm ac dpkc e he, ?_, ?_⟩
  · rintro p k c ⟨cstr, hmem, htag⟩
    rcases mem_model_cases prm ac dpkc cstr hmem with
      ⟨c', -, rfl⟩ | ⟨j', -, rfl⟩ | ⟨e', -, rfl⟩ | ⟨-, h6⟩ | h7 | hx
    · simp [r1Constr] at htag
    · simp [r3Constr] at htag
    · simp [r5Constr] at htag
    · obtain ⟨p', k', c', htag', hv⟩ := mem_r6Constrs_tag prm _ cstr h6
      rw [htag] at htag'
      obtain ⟨rfl, rfl, rfl⟩ : p = p' ∧ k = k' ∧ c = c' := by
        cases htag'
        exact ⟨rfl, rfl, rfl⟩
      obtain ⟨t, ht, hd⟩ := List.any_eq_true.mp hv
      exact ⟨t, ht, of_decide_eq_true hd⟩
    · obtain ⟨-, rfl⟩ := (mem_r7Constrs_iff prm cstr).mp h7
      simp [r7C] at htag
    · obtain ⟨t, -, heq⟩ := List.mem_map.mp hx
      rw [← heq] at htag
      cases htag
  · rintro ⟨cstr, hmem, htag⟩
    have h7 := mem_model_r7 prm ac dpkc cstr hmem htag
    obtain ⟨⟨hE, hA⟩, -⟩ := (mem_r7Constrs_iff prm cstr).mp h7
    obtain ⟨t, ht, hd⟩ := List.any_eq_true.mp hA
    exact ⟨hE, t, ht, of_decide_eq_true hd⟩

theorem C8_amended_only_r6_r7_omitted_witness :
    r1Constr prmA acA 0 ∈ modelConstrs prmA acA none :=
  (C8_amended_only_r6_r7_omitted prmA acA none).1 0 (by decide)

/-- Scenario A with a misconfigured zero yield, so the 1e-9 floor of R1 is
actually applied. -/
def prmF : Params := { prmA with yp := [("P1", 0)] }

theorem varsF : VARS prmF = [tA1, tA2] := by decide

theorem eps_lt_zero_decide : decide (eps < (0 : ℚ)) = false :=
  decide_eq_false (by norm_num [eps])

theorem extractRowsF : extractRows prmF (fun _ => 0) = [] := by
  unfold extractRows
  rw [varsF]
  simp [eps_lt_zero_decide]

/-- C7 counterexample: with yield 0 the 1e-9 floor fires for an instantiated
variable (sp·yp = 0 < 1e-9), yet a complete `solve_plan` run returns with
notes that say nothing about it — the list is exactly the generic
all-variables-zero note, identical to a run without flooring. -/
theorem C7_counterexample_floor_silent :
    (∃ t ∈ VARS prmF, spGet prmF t.p * ypGet prmF t.p < eps) ∧
    (solvePlan prmF none acA GStatus.optimal (fun _ => 0)
        "20251012_000000").1.notes = [emptyPlanNote] := by
  constructor
  · refine ⟨tA1, by decide, ?_⟩
    norm_num [spGet, ypGet, agetD, aget, prmF, prmA, tA1, eps]
  · unfold solvePlan solvePlanBody
    rw [show paramError prmF = none from rfl]
    simp [show capKeysOk prmF = true from rfl,
      show buildNotes prmF = ([] : List String) from rfl,
      show acOverride prmF.C_map acA none = (acA, []) from rfl,
      extractRowsF, GStatus.usable]

/-- C7 amended: the 1e-9 floor is applied silently. With the external
solver's status and values held fixed, the entire result of `solve_plan` —
notes included — is unchanged by any modification of the yield table, because
`yp` enters only the posted constraint coefficients and never the notes; in
particular no note is appended when the floor fires. -/
theorem C7_amended_floor_applied_silently (prm : Params)
    (yp1 yp2 : List (String × ℚ)) (inputs? : Option InTable)
    (acYaml : List (Nat × Int)) (st : GStatus) (xval : Tup → ℚ)
    (ts : String) :
    solvePlan { prm with yp := yp1 } inputs? acYaml st xval ts
      = solvePlan { prm with yp := yp2 } inputs? acYaml st xval ts := rfl

/-- Modelled from the spec: input of the greedy-heuristic allocator
(Allocator strategy B, spec section 4.4), which is missing from src/ — the
repository only ships the exact Gurobi path. Sizes carry available pieces;
`compat` lists the compatible (size, line) pairs; `packCap` is the global
packing capacity; `products` is the configured product sequence; `areasFor`
gives each product's priority-ordered allowed areas; `ppb` is the
pieces-per-box of each product's box format. -/
structure GreedyInput where
  sizes : List (Nat × ℚ)
  lines : List (String × ℚ)
  compat : List (Nat × String)
  packCap : ℚ
  products : List String
  areasFor : List (String × List String)
  areaCap : List (String × ℚ)
  ppb : List (String × ℚ)

/-- Modelled from the spec: one allocation row of the heuristic plan. -/
structure GRow where
  line : String
  area : String
  product : String
  size : Nat
  boxes : Int
  pieces : ℚ

/-- Modelled from the spec: running usage state of the heuristic. -/
structure GreedyState where
  lineUsed : List (String × ℚ)
  areaUsed : List (String × ℚ)
  packUsed : ℚ
  plan : List GRow

/-- Modelled from the spec: result of the heuristic — plan rows, notes, and
the per-line usage percentages. -/
structure GreedyOut where
  plan : List GRow
  notes : List String
  usage : List (String × ℚ)

/-- Modelled from the spec: the note recorded when no allocation was
possible. -/
def noAllocNote : String := "Sin asignaciones posibles."

/-- Modelled from the spec: a line's free capacity (capacity minus
already-used, clamped at 0). -/
def gfree (st : GreedyState) (l : String × ℚ) : ℚ :=
  max 0 (l.2 - agetD st.lineUsed l.1 0)

/-- Modelled from the spec (step 5): the first product of the sequence that
has an allowed area not yet exhausted, together with that area. -/
def pickProduct (inp : GreedyInput) (st : GreedyState) :
    Option (String × String) :=
  inp.products.findSome? (fun p =>
    ((agetD inp.areasFor p []).find? (fun a =>
        decide (agetD st.areaUsed a 0 < agetD inp.areaCap a 0))).map
      (fun a => (p, a)))

/-- Modelled from the spec (steps 3-6): allocate one line's proportional
share `floor(avail * free / totalFree)`, cap it by the remaining global
packing capacity, convert to whole boxes dropping the remainder, and record
the row and usage updates. A zero `totalFree` would be a division fault and
is modelled as an error; the caller's skip guard makes it unreachable. -/
def allocLine (inp : GreedyInput) (c : Nat) (avail totalFree : ℚ)
    (st : GreedyState) (f : String × ℚ) : Except String GreedyState :=
  if totalFree = 0 then .error "division by zero in proportional split"
  else
    let share : ℚ := ((avail * f.2 / totalFree).floor : Int)
    let alloc := min share (max 0 (inp.packCap - st.packUsed))
    match pickProduct inp st with
    | none => .ok st
    | some pa =>
      let ppbv := agetD inp.ppb pa.1 0
      let boxes : Int := if ppbv = 0 then 0 else (alloc / ppbv).floor
      if boxes ≤ 0 then .ok st
      else
        let pieces := (boxes : ℚ) * ppbv
        .ok { lineUsed := aset st.lineUsed f.1 (agetD st.lineUsed f.1 0 + pieces)
              areaUsed := aset st.areaUsed pa.2 (agetD st.areaUsed pa.2 0 + pieces)
              packUsed := st.packUsed + pieces
              plan := st.plan ++ [{ line := f.1, area := pa.2, product := pa.1,
                                    size := c, boxes := boxes,
                                    pieces := pieces }] }

/-- Modelled from the spec (steps 1-2): process one size class — restrict to
compatible lines, take the free-capacity snapshot, skip the size class when
the total free capacity is 0, otherwise split proportionally line by line. -/
def stepSize (inp : GreedyInput) (st0 : GreedyState) (row : Nat × ℚ) :
    Except String GreedyState :=
  let compatLines := inp.lines.filter (fun l => decide ((row.1, l.1) ∈ inp.compat))
  let frees := compatLines.map (fun l => (l.1, gfree st0 l))
  let totalFree := (frees.map (fun fr => fr.2)).sum
  if totalFree ≤ 0 then .ok st0
  else frees.foldlM (allocLine inp row.1 row.2 totalFree) st0

/-- Ordering of result rows by (line, product, size). -/
def growLE (a b : GRow) : Bool :=
  if a.line ≠ b.line then decide (a.line < b.line)
  else if a.product ≠ b.product then decide (a.product < b.product)
  else decide (a.size ≤ b.size)

def insGRow (a : GRow) : List GRow → List GRow
  | [] => [a]
  | b :: bs => if growLE a b then a :: b :: bs else b :: insGRow a bs

/-- Deterministic sort of the heuristic rows (insertion sort). -/
def sortGRows (l : List GRow) : List GRow := l.foldr insGRow []

/-- Modelled from the spec: the greedy-heuristic allocator (Allocator
strategy B), missing from src/. Processes each size class independently,
then sorts rows by (line, product, size), reports per-line usage
percentages, and records a note when no allocation was possible. -/
def greedyRun (inp : GreedyInput) : Except String GreedyOut :=
  (inp.sizes.foldlM (stepSize inp)
      { lineUsed := [], areaUsed := [], packUsed := 0, plan := [] }).map
    (fun st =>
      { plan := sortGRows st.plan
        notes := if st.plan.isEmpty then [noAllocNote] else []
        usage := inp.lines.map (fun l =>
            (l.1, if l.2 = 0 then 0
                  else 100 * agetD st.lineUsed l.1 0 / l.2)) })

theorem allocLine_ok (inp : GreedyInput) (c : Nat) (avail totalFree : ℚ)
    (hne : totalFree ≠ 0) (st : GreedyState) (f : String × ℚ) :
    ∃ st', allocLine inp c avail totalFree st f = Except.ok st' := by
  unfold allocLine
  rw [if_neg hne]
  cases hp : pickProduct inp st with
  | none => exact ⟨st, rfl⟩
  | some pa =>
    dsimp only
    split <;> split <;> first
      | exact ⟨st, rfl⟩
      | exact ⟨_, rfl⟩

theorem foldlM_except_ok {σ α : Type} (f : σ → α → Except String σ)
    (l : List α) (h : ∀ s a, a ∈ l → ∃ s', f s a = Except.ok s') :
    ∀ s, ∃ s', l.foldlM f s = Except.ok s' := by
  induction l with
  | nil => exact fun s => ⟨s, rfl⟩
  | cons a as ih =>
    intro s
    obtain ⟨s1, h1⟩ := h s a (List.mem_cons_self a as)
    obtain ⟨s2, h2⟩ := ih (fun s a ha => h s a (List.mem_cons_of_mem _ ha)) s1
    refine ⟨s2, ?_⟩
    rw [List.foldlM_cons, h1]
    simpa using h2

theorem stepSize_ok (inp : GreedyInput) (st : GreedyState) (row : Nat × ℚ) :
    ∃ st', stepSize inp st row = Except.ok st' := by
  unfold stepSize
  by_cases hz : (((inp.lines.filter
        (fun l => decide ((row.1, l.1) ∈ inp.compat))).map
        (fun l => (l.1, gfree st l))).map (fun fr => fr.2)).sum ≤ 0
  · exact ⟨st, by rw [if_pos hz]⟩
  · rw [if_neg hz]
    exact foldlM_except_ok _ _
      (fun s f _ => allocLine_ok inp row.1 row.2 _ (by push_neg at hz; linarith) s f) st

theorem insGRow_length (a : GRow) (l : List GRow) :
    (insGRow a l).length = l.length + 1 := by
  induction l with
  | nil => rfl
  | cons b bs ih =>
    unfold insGRow
    by_cases h : growLE a b = true
    · rw [if_pos h]; rfl
    · rw [if_neg h]
      simp [ih]

theorem sortGRows_length (l : List GRow) : (sortGRows l).length = l.length := by
  induction l with
  | nil => rfl
  | cons a as ih =>
    unfold sortGRows at ih ⊢
    simp [List.foldr_cons, insGRow_length, ih]

/-- C9: the greedy-heuristic allocator never raises an error on
infeasibility: for every input it returns a (possibly smaller or empty) plan,
and when no allocation was possible it records a note. -/
theorem C9_greedy_never_fails (inp : GreedyInput) :
    ∃ out, greedyRun inp = Except.ok out ∧
      (out.plan = [] → noAllocNote ∈ out.notes) := by
  unfold greedyRun
  obtain ⟨st, hst⟩ := foldlM_except_ok (stepSize inp) inp.sizes
    (fun s row _ => stepSize_ok inp s row)
    { lineUsed := [], areaUsed := [], packUsed := 0, plan := [] }
  rw [hst]
  simp only [Except.map]
  refine ⟨_, rfl, ?_⟩
  dsimp only
  intro hplan
  have hlen : st.plan.length = 0 := by
    rw [← sortGRows_length, hplan]
    rfl
  have hempty : st.plan.isEmpty = true := by
    cases hp : st.plan with
    | nil => rfl
    | cons a as => rw [hp] at hlen; cases hlen
  simp [hempty]

end Salmones
